import Mathlib

/-!
Verification development for the CanvasCraft action-sourced drawing engine.

The definitions below are a shallow embedding of the TypeScript source:
the per-sheet history handlers of the main page component
(handleCommitAction, handleUndo, handleRedo, handleClearCanvas,
handleToggleHistoryVisibility, handleDuplicateSheet, handleDeleteSheet,
updateSheetHistory), the rendering walk of the multi-sheet renderer
(latestActionDataById construction and the paint pass of redrawCanvas),
the sequential rendering walk of the single-sheet renderer, the text
hit-testing helpers (getTextElementAtPointInternal, getTextElementById)
and the pure geometry helpers (signTriangle, isPointInTriangle,
isPointInRectangle).

JS numbers are modelled as rationals, JS Map objects (which preserve
insertion order, keep the original slot on re-set and drop the slot on
delete) as ordered association lists, and the optional visible flag as a
Bool where the JS undefined case is true, matching the source checks
visible === false and visible !== false.  Rasterization performed by the
HTML canvas (fillText, drawImage, path fill and stroke) is external to
the repository and is modelled by an explicit environment; the stroke of
a freehand polyline and clearRect are given their standard geometric
pixel semantics because the eraser-sequencing claim is about them.
-/

/-- Horizontal text alignment, from the textAlign union type. -/
inductive Align where
  | left
  | center
  | right
deriving DecidableEq, Repr

/-- Shape kinds drawn through drawSpecificShapeAction. -/
inductive ShapeKind where
  | rectangle
  | circle
  | triangle
deriving DecidableEq, Repr

/-- A logical-coordinate point, from the Point interface. -/
structure Point where
  x : ℚ
  y : ℚ
deriving DecidableEq, Repr

/-- Text element payload, from the TextElementData interface. -/
structure TextElementData where
  id : String
  text : String
  x : ℚ
  y : ℚ
  fontFamily : String
  fontSize : ℚ
  textColor : String
  textAlign : Align
  isBold : Bool
  isItalic : Bool
  isUnderline : Bool
  measuredWidth : ℚ
  measuredHeight : ℚ
deriving DecidableEq, Repr

/-- Image element payload, from the ImageActionData interface. -/
structure ImageActionData where
  id : String
  src : String
  x : ℚ
  y : ℚ
  width : ℚ
  height : ℚ
deriving DecidableEq, Repr

/-- Variant payload of one drawing action, from the DrawingAction union. -/
inductive ActionData where
  | freehand (points : List Point) (strokeColor : String) (strokeWidth : ℚ)
  | line (startPoint endPoint : Point) (strokeColor : String) (strokeWidth : ℚ)
  | shape (kind : ShapeKind) (startPoint endPoint : Point)
      (strokeColor : String) (strokeWidth : ℚ) (fillColor : String) (isFilled : Bool)
  | eraser (points : List Point) (size : ℚ)
  | text (data : TextElementData)
  | image (data : ImageActionData)
deriving DecidableEq, Repr

/-- One committed drawing action: stable id, visibility flag, payload.
The JS visible field is an optional boolean checked only against the
literal false, so undefined collapses to true here. -/
structure DrawingAction where
  id : String
  visible : Bool
  data : ActionData
deriving DecidableEq, Repr

/-- One sheet, from the CanvasSheet interface: ordered drawing log plus
the history cursor (an integer so that the empty position -1 is
representable). -/
structure CanvasSheet where
  id : String
  name : String
  drawingHistory : List DrawingAction
  historyIndex : ℤ
deriving DecidableEq, Repr

/-- Fresh sheet as built by createNewSheet when no history is supplied:
empty log and cursor -1. -/
def createNewSheet (sheetId sheetName : String) : CanvasSheet :=
  { id := sheetId, name := sheetName, drawingHistory := [], historyIndex := -1 }

/-- Effect of handleCommitAction on the active sheet: truncate the log to
slice(0, historyIndex + 1), append the new action, and set the cursor to
the last position of the new log. -/
def handleCommitAction (s : CanvasSheet) (a : DrawingAction) : CanvasSheet :=
  let currentHistory := s.drawingHistory.take (s.historyIndex + 1).toNat
  let newHistory := currentHistory ++ [a]
  { s with drawingHistory := newHistory, historyIndex := (newHistory.length : ℤ) - 1 }

/-- Effect of handleUndo on the active sheet: decrement the cursor when it
is at least 0, otherwise do nothing; the log itself is passed through
unchanged. -/
def handleUndo (s : CanvasSheet) : CanvasSheet :=
  if s.historyIndex < 0 then s
  else { s with historyIndex := s.historyIndex - 1 }

/-- Effect of handleRedo on the active sheet: increment the cursor when it
is strictly below length - 1, otherwise do nothing. -/
def handleRedo (s : CanvasSheet) : CanvasSheet :=
  if s.historyIndex ≥ (s.drawingHistory.length : ℤ) - 1 then s
  else { s with historyIndex := s.historyIndex + 1 }

/-- Effect of handleClearCanvas on the active sheet: empty log, cursor -1. -/
def handleClearCanvas (s : CanvasSheet) : CanvasSheet :=
  { s with drawingHistory := [], historyIndex := -1 }

/-- Effect of handleToggleHistoryVisibility on the active sheet: map over
the log flipping the visible flag of every action with the given id; the
cursor is passed through unchanged. -/
def handleToggleHistoryVisibility (s : CanvasSheet) (actionId : String) : CanvasSheet :=
  { s with drawingHistory :=
      s.drawingHistory.map (fun a =>
        if a.id = actionId then { a with visible := !a.visible } else a) }

/-- Folding handleCommitAction over a list of actions, modelling a
sequence of interaction commits. -/
def commitAll (s : CanvasSheet) (acts : List DrawingAction) : CanvasSheet :=
  acts.foldl handleCommitAction s

/-- The history-store invariant stated in the spec data model:
-1 <= historyIndex <= log.length - 1. -/
def SheetInv (s : CanvasSheet) : Prop :=
  -1 ≤ s.historyIndex ∧ s.historyIndex ≤ (s.drawingHistory.length : ℤ) - 1

/-- Effect of updateSheetHistory on the sheets collection: replace log and
cursor of every sheet whose id matches. -/
def updateSheetHistory (sheets : List CanvasSheet) (sheetId : String)
    (newHistory : List DrawingAction) (newIndex : ℤ) : List CanvasSheet :=
  sheets.map (fun s =>
    if s.id = sheetId then { s with drawingHistory := newHistory, historyIndex := newIndex }
    else s)

/-- Lookup of a sheet by id, the sheets.find pattern of the page component. -/
def findSheet (sheets : List CanvasSheet) (sheetId : String) : Option CanvasSheet :=
  sheets.find? (fun s => s.id = sheetId)

/-- handleDuplicateSheet: when the source sheet exists, append a new sheet
carrying a copy of its log and the same cursor; the fresh id generated
from the clock is a parameter here. -/
def handleDuplicateSheet (sheets : List CanvasSheet) (sheetId newId : String) :
    List CanvasSheet :=
  match findSheet sheets sheetId with
  | some s =>
      sheets ++ [{ id := newId, name := s.name ++ " (Copy)",
                   drawingHistory := s.drawingHistory, historyIndex := s.historyIndex }]
  | none => sheets

/-- handleClearCanvas routed to a given sheet of the collection through
updateSheetHistory: empty log, cursor -1. -/
def handleClearCanvasOn (sheets : List CanvasSheet) (sheetId : String) : List CanvasSheet :=
  updateSheetHistory sheets sheetId [] (-1)

/-- handleToggleHistoryVisibility routed to a given sheet of the
collection: flip the visible flag of the matching occurrences in that
sheet, keep its cursor. -/
def handleToggleHistoryVisibilityOn (sheets : List CanvasSheet) (sheetId actionId : String) :
    List CanvasSheet :=
  match findSheet sheets sheetId with
  | some s =>
      updateSheetHistory sheets sheetId
        (s.drawingHistory.map (fun a =>
          if a.id = actionId then { a with visible := !a.visible } else a))
        s.historyIndex
  | none => sheets

/-- handleDeleteSheet: refuse when at most one sheet remains, refuse when
the id is absent, otherwise drop every sheet with that id. -/
def handleDeleteSheet (sheets : List CanvasSheet) (sheetId : String) : List CanvasSheet :=
  if sheets.length ≤ 1 then sheets
  else if sheets.any (fun s => decide (s.id = sheetId)) then
    sheets.filter (fun s => decide (s.id ≠ sheetId))
  else sheets

/-- Cross product sign helper, from signTriangle. -/
def signTriangle (p1 p2 p3 : Point) : ℚ :=
  (p1.x - p3.x) * (p2.y - p3.y) - (p2.x - p3.x) * (p1.y - p3.y)

/-- Sign-based point-in-triangle test, from isPointInTriangle. -/
def isPointInTriangle (pt v1 v2 v3 : Point) : Bool :=
  let d1 := signTriangle pt v1 v2
  let d2 := signTriangle pt v2 v3
  let d3 := signTriangle pt v3 v1
  let hasNeg := decide (d1 < 0) || decide (d2 < 0) || decide (d3 < 0)
  let hasPos := decide (d1 > 0) || decide (d2 > 0) || decide (d3 > 0)
  !(hasNeg && hasPos)

/-- Axis-aligned box membership from two opposite corners, from
isPointInRectangle. -/
def isPointInRectangle (point rectStart rectEnd : Point) : Bool :=
  let x1 := min rectStart.x rectEnd.x
  let y1 := min rectStart.y rectEnd.y
  let x2 := max rectStart.x rectEnd.x
  let y2 := max rectStart.y rectEnd.y
  decide (point.x ≥ x1) && decide (point.x ≤ x2) &&
    decide (point.y ≥ y1) && decide (point.y ≤ y2)

/-- Membership test of a JS Map modelled as an ordered association list. -/
def jsMapHas {α : Type} (m : List (String × α)) (k : String) : Bool :=
  m.any (fun q => decide (q.1 = k))

/-- JS Map.set: an existing key keeps its slot and receives the new value,
a new key is appended at the end. -/
def jsMapSet {α : Type} (m : List (String × α)) (k : String) (v : α) :
    List (String × α) :=
  if jsMapHas m k then m.map (fun q => if q.1 = k then (k, v) else q)
  else m ++ [(k, v)]

/-- JS Map.delete: drop the slot of the key, keeping the other slots in
order. -/
def jsMapDelete {α : Type} (m : List (String × α)) (k : String) :
    List (String × α) :=
  m.filter (fun q => decide (q.1 ≠ k))

/-- The identity-resolution walk of redrawCanvas in the multi-sheet
renderer: scan entries 0..historyIndex; an entry with visible false
deletes its id from the map (when present), any other entry stores
itself under its id. -/
def latestActionDataById (hist : List DrawingAction) (historyIndex : ℤ) :
    List (String × DrawingAction) :=
  (hist.take (historyIndex + 1).toNat).foldl
    (fun m a =>
      if a.visible = false then
        if jsMapHas m a.id then jsMapDelete m a.id else m
      else jsMapSet m a.id a) []

/-- Squared distance between two points. -/
def distSq (p q : Point) : ℚ := (p.x - q.x) ^ 2 + (p.y - q.y) ^ 2

/-- Whether a point lies within distance r of the segment from a to b,
decided on squared distances; this is the painted footprint of one
stroked segment with round caps. -/
def segWithin (p a b : Point) (r : ℚ) : Bool :=
  let dx := b.x - a.x
  let dy := b.y - a.y
  let len2 := dx ^ 2 + dy ^ 2
  if len2 = 0 then decide (distSq p a ≤ r ^ 2)
  else
    let t := ((p.x - a.x) * dx + (p.y - a.y) * dy) / len2
    let tc := max 0 (min 1 t)
    decide ((p.x - (a.x + tc * dx)) ^ 2 + (p.y - (a.y + tc * dy)) ^ 2 ≤ r ^ 2)

/-- Painted footprint of a stroked freehand polyline of the given line
width: within width/2 of some segment between consecutive sampled
points.  A path with fewer than two points strokes nothing, matching the
points.length > 1 guard in drawSpecificShapeAction. -/
def freehandCovers (pts : List Point) (w : ℚ) (p : Point) : Bool :=
  (pts.zip pts.tail).any (fun ab => segWithin p ab.1 ab.2 (w / 2))

/-- Closed-rectangle membership used for the clearRect footprint. -/
def inRectB (p : Point) (x y w h : ℚ) : Bool :=
  decide (x ≤ p.x) && decide (p.x ≤ x + w) &&
    decide (y ≤ p.y) && decide (p.y ≤ y + h)

/-- Erased footprint of an eraser action: the union of the size-by-size
squares centred on its sampled points, exactly the rectangles passed to
clearRect in the replay loop. -/
def eraserCovers (pts : List Point) (size : ℚ) (p : Point) : Bool :=
  pts.any (fun q => inRectB p (q.x - size / 2) (q.y - size / 2) size size)

/-- Primitive operations emitted to the 2d context during a repaint. -/
inductive CanvasOp where
  | strokePath (points : List Point) (color : String) (width : ℚ)
  | strokeLine (a b : Point) (color : String) (width : ℚ)
  | clearRect (x y w h : ℚ)
  | paintShape (kind : ShapeKind) (startPoint endPoint : Point)
      (strokeColor : String) (strokeWidth : ℚ) (fillColor : String) (isFilled : Bool)
  | fillText (data : TextElementData)
  | drawImage (data : ImageActionData)
deriving DecidableEq, Repr

/-- A raster surface: the topmost painted color at each logical point,
none where nothing is painted. -/
def Canvas : Type := Point → Option String

/-- Rasterization of the operations the repository hands off to the HTML
canvas without further geometry of its own: path fill and stroke of
shapes, glyph rendering of fillText, pixel sampling of drawImage. -/
structure ExternalPaint where
  extPixel : CanvasOp → Point → Option String

/-- Effect of one primitive operation on the raster surface.  Freehand
strokes, line strokes and clearRect get their geometric semantics;
shape, text and image operations are delegated to the external
rasterizer, which paints over whatever pixel it returns a color for. -/
def applyOp (env : ExternalPaint) (c : Canvas) (op : CanvasOp) : Canvas :=
  match op with
  | CanvasOp.strokePath pts col w =>
      fun p => if freehandCovers pts w p then some col else c p
  | CanvasOp.strokeLine a b col w =>
      fun p => if segWithin p a b (w / 2) then some col else c p
  | CanvasOp.clearRect x y w h =>
      fun p => if inRectB p x y w h then none else c p
  | op =>
      fun p =>
        match env.extPixel op p with
        | some col => some col
        | none => c p

/-- Operations emitted for one action by the paint pass, shared by both
renderer variants: the freehand branch strokes only paths of length at
least two, the eraser branch clears one square per sampled point, the
text branch refreshes the measured dimensions when they are unset (the
falsy check of the source) using the supplied text-measuring capability
of the surface. -/
def actionOps (measure : TextElementData → ℚ) (a : DrawingAction) : List CanvasOp :=
  match a.data with
  | ActionData.freehand pts c w =>
      if pts.length > 1 then [CanvasOp.strokePath pts c w] else []
  | ActionData.line p q c w => [CanvasOp.strokeLine p q c w]
  | ActionData.shape k sp ep sc sw fc fl => [CanvasOp.paintShape k sp ep sc sw fc fl]
  | ActionData.eraser pts sz =>
      pts.map (fun q => CanvasOp.clearRect (q.x - sz / 2) (q.y - sz / 2) sz sz)
  | ActionData.text d =>
      let d2 := if d.measuredWidth = 0 ∨ d.measuredHeight = 0 then
          { d with measuredWidth := measure d, measuredHeight := d.fontSize }
        else d
      [CanvasOp.fillText d2]
  | ActionData.image d => [CanvasOp.drawImage d]

/-- Operation sequence of redrawCanvas in the multi-sheet renderer: build
the latest-per-id map over entries 0..historyIndex, then paint every
surviving entry once, in map (insertion) order. -/
def renderOpsMap (measure : TextElementData → ℚ) (hist : List DrawingAction)
    (historyIndex : ℤ) : List CanvasOp :=
  (latestActionDataById hist historyIndex).flatMap (fun q => actionOps measure q.2)

/-- Walk state of redrawCanvas in the single-sheet renderer: operations
already emitted, deferred text map, deferred image list. -/
structure SeqState where
  ops : List CanvasOp
  texts : List (String × TextElementData)
  images : List ImageActionData

/-- One step of the sequential walk of the single-sheet renderer: shapes,
lines, freehand strokes and eraser squares are emitted immediately in
log order; text entries update the latest-per-id text map with freshly
measured dimensions; image entries are queued. -/
def seqStep (measure : TextElementData → ℚ) (st : SeqState) (a : DrawingAction) :
    SeqState :=
  match a.data with
  | ActionData.freehand pts c w =>
      { st with ops := st.ops ++ (if pts.length > 1 then [CanvasOp.strokePath pts c w] else []) }
  | ActionData.line p q c w => { st with ops := st.ops ++ [CanvasOp.strokeLine p q c w] }
  | ActionData.shape k sp ep sc sw fc fl =>
      { st with ops := st.ops ++ [CanvasOp.paintShape k sp ep sc sw fc fl] }
  | ActionData.eraser pts sz =>
      { st with ops := st.ops ++ pts.map (fun q => CanvasOp.clearRect (q.x - sz / 2) (q.y - sz / 2) sz sz) }
  | ActionData.text d =>
      { st with texts := jsMapSet st.texts a.id ({ d with measuredWidth := measure d, measuredHeight := d.fontSize }) }
  | ActionData.image d => { st with images := st.images ++ [d] }

/-- Operation sequence of redrawCanvas in the single-sheet renderer: walk
entries 0..historyIndex in order, then paint the surviving text entries
in map order, then the queued images. -/
def renderOpsSeq (measure : TextElementData → ℚ) (hist : List DrawingAction)
    (historyIndex : ℤ) : List CanvasOp :=
  let st := (hist.take (historyIndex + 1).toNat).foldl (seqStep measure)
    { ops := [], texts := [], images := [] }
  st.ops ++ st.texts.map (fun q => CanvasOp.fillText q.2) ++ st.images.map CanvasOp.drawImage

/-- Raster produced by a repaint of the multi-sheet renderer, starting
from the cleared (blank) surface. -/
def renderCanvasMap (env : ExternalPaint) (measure : TextElementData → ℚ)
    (hist : List DrawingAction) (historyIndex : ℤ) : Canvas :=
  (renderOpsMap measure hist historyIndex).foldl (applyOp env) (fun _ => none)

/-- Raster produced by a repaint of the single-sheet renderer, starting
from the cleared (blank) surface. -/
def renderCanvasSeq (env : ExternalPaint) (measure : TextElementData → ℚ)
    (hist : List DrawingAction) (historyIndex : ℤ) : Canvas :=
  (renderOpsSeq measure hist historyIndex).foldl (applyOp env) (fun _ => none)

/-- Alignment-dependent left edge of the text hit box, the x1 computation
of getTextElementAtPointInternal: the anchor for left alignment, anchor
minus half the measured width for center, anchor minus the measured
width for right. -/
def textHitX1 (td : TextElementData) : ℚ :=
  match td.textAlign with
  | Align.left => td.x
  | Align.center => td.x - td.measuredWidth / 2
  | Align.right => td.x - td.measuredWidth

/-- Alignment-dependent start of the underline painted by
drawTextElement, computed from the anchor and the measured text width
returned by measureText. -/
def underlineStartX (td : TextElementData) (metricsWidth : ℚ) : ℚ :=
  match td.textAlign with
  | Align.left => td.x
  | Align.center => td.x - metricsWidth / 2
  | Align.right => td.x - metricsWidth

/-- Hit box test of getTextElementAtPointInternal: the box spans the
measured width to the right of the alignment-shifted left edge and the
measured height above the baseline. -/
def textHitBoxContains (td : TextElementData) (p : Point) : Bool :=
  let x1 := textHitX1 td
  let y1 := td.y - td.measuredHeight
  let x2 := x1 + td.measuredWidth
  let y2 := td.y
  decide (x1 ≤ p.x) && decide (p.x ≤ x2) && decide (y1 ≤ p.y) && decide (p.y ≤ y2)

/-- Latest-per-id visible text map of getTextElementAtPointInternal in the
multi-sheet renderer: a visible text entry stores its data with freshly
measured dimensions, a hidden text entry deletes its id when present. -/
def latestTextElements (measure : TextElementData → ℚ) (hist : List DrawingAction)
    (historyIndex : ℤ) : List (String × TextElementData) :=
  (hist.take (historyIndex + 1).toNat).foldl
    (fun m a =>
      match a.data with
      | ActionData.text d =>
          if a.visible then
            jsMapSet m a.id ({ d with measuredWidth := measure d, measuredHeight := d.fontSize })
          else if jsMapHas m a.id then jsMapDelete m a.id
          else m
      | _ => m) []

/-- getTextElementAtPointInternal of the multi-sheet renderer: walk the
latest visible text elements topmost (most recently inserted) first and
return the first whose hit box contains the point. -/
def getTextElementAtPointInternal (measure : TextElementData → ℚ)
    (hist : List DrawingAction) (historyIndex : ℤ) (p : Point) :
    Option TextElementData :=
  (((latestTextElements measure hist historyIndex).reverse).find?
      (fun q => textHitBoxContains q.2 p)).map (fun q => q.2)

/-- Scan of getTextElementById over the reversed applied log: return the
first text action with the given id whose visible flag is not false,
with freshly measured dimensions. -/
def findLatestVisibleText (measure : TextElementData → ℚ) (targetId : String) :
    List DrawingAction → Option TextElementData
  | [] => none
  | a :: rest =>
    match a.data with
    | ActionData.text d =>
        if a.id = targetId ∧ a.visible then
          some ({ d with measuredWidth := measure d, measuredHeight := d.fontSize })
        else findLatestVisibleText measure targetId rest
    | _ => findLatestVisibleText measure targetId rest

/-- getTextElementById of the multi-sheet renderer: slice(0, index + 1),
reverse, find the latest text action with the id and visible not false. -/
def getTextElementById (measure : TextElementData → ℚ) (hist : List DrawingAction)
    (historyIndex : ℤ) (targetId : String) : Option TextElementData :=
  findLatestVisibleText measure targetId ((hist.take (historyIndex + 1).toNat).reverse)

/-- A sample freehand action used to instantiate theorems with
hypotheses. -/
def actFree : DrawingAction :=
  { id := "f1", visible := true,
    data := ActionData.freehand [{ x := 0, y := 0 }, { x := 10, y := 0 }] "#000000" 2 }

/-- A sample line action used to instantiate theorems with hypotheses. -/
def actLine : DrawingAction :=
  { id := "l1", visible := true,
    data := ActionData.line { x := 0, y := 0 } { x := 5, y := 5 } "#000000" 2 }

/-- A sample sheet holding two committed actions with the cursor on the
last one. -/
def sampleSheet : CanvasSheet :=
  { id := "sheet-1", name := "Sheet 1", drawingHistory := [actFree, actLine], historyIndex := 1 }

/-- C9: the point-in-triangle test computes the three cross products
sign(p, v1, v2), sign(p, v2, v3), sign(p, v3, v1) and answers true
exactly when they are not strictly mixed, that is, when all three are
nonnegative or all three are nonpositive. -/
theorem point_in_triangle_sign (pt v1 v2 v3 : Point) :
    isPointInTriangle pt v1 v2 v3 = true ↔
      ((0 ≤ signTriangle pt v1 v2 ∧ 0 ≤ signTriangle pt v2 v3 ∧ 0 ≤ signTriangle pt v3 v1) ∨
       (signTriangle pt v1 v2 ≤ 0 ∧ signTriangle pt v2 v3 ≤ 0 ∧ signTriangle pt v3 v1 ≤ 0)) := by
  simp only [isPointInTriangle, Bool.not_eq_true', Bool.and_eq_false_iff,
    Bool.or_eq_false_iff, decide_eq_false_iff_not, not_lt, gt_iff_lt]
  tauto

/-- C6: every history-store operation preserves the cursor invariant
-1 <= historyIndex <= log.length - 1; undo decrements exactly when the
cursor is at least 0 and is a no-op at the lower bound, redo increments
exactly when the cursor is below length - 1 and is a no-op at the upper
bound. -/
theorem history_ops_preserve_invariant (s : CanvasSheet) (a : DrawingAction)
    (actionId : String) (h : SheetInv s) :
    SheetInv (handleCommitAction s a) ∧ SheetInv (handleUndo s) ∧ SheetInv (handleRedo s) ∧
    SheetInv (handleClearCanvas s) ∧ SheetInv (handleToggleHistoryVisibility s actionId) ∧
    (s.historyIndex < 0 → handleUndo s = s) ∧
    (0 ≤ s.historyIndex →
      (handleUndo s).historyIndex = s.historyIndex - 1 ∧
      (handleUndo s).drawingHistory = s.drawingHistory) ∧
    ((s.drawingHistory.length : ℤ) - 1 ≤ s.historyIndex → handleRedo s = s) ∧
    (s.historyIndex < (s.drawingHistory.length : ℤ) - 1 →
      (handleRedo s).historyIndex = s.historyIndex + 1 ∧
      (handleRedo s).drawingHistory = s.drawingHistory) := by
  obtain ⟨h1, h2⟩ := h
  refine ⟨?_, ?_, ?_, ?_, ?_, ?_, ?_, ?_, ?_⟩
  · constructor <;> (simp [handleCommitAction]; try omega)
  · unfold handleUndo SheetInv at *
    split <;> constructor <;> first | (simp; omega) | omega
  · unfold handleRedo SheetInv at *
    split <;> constructor <;> first | (simp; omega) | omega
  · constructor <;> simp [handleClearCanvas]
  · constructor <;> simp [handleToggleHistoryVisibility] <;> omega
  · intro hlt; unfold handleUndo; rw [if_pos hlt]
  · intro hge
    unfold handleUndo
    rw [if_neg (by omega)]
    exact ⟨rfl, rfl⟩
  · intro hge; unfold handleRedo; rw [if_pos (by omega)]
  · intro hlt
    unfold handleRedo
    rw [if_neg (by omega)]
    exact ⟨rfl, rfl⟩

/-- Witness for C6 at a concrete sheet. -/
theorem history_ops_preserve_invariant_witness :
    SheetInv sampleSheet ∧ SheetInv (handleCommitAction sampleSheet actFree) ∧
    (handleUndo sampleSheet).historyIndex = sampleSheet.historyIndex - 1 :=
  ⟨⟨by decide, by decide⟩,
   (history_ops_preserve_invariant sampleSheet actFree "f1" ⟨by decide, by decide⟩).1,
   ((history_ops_preserve_invariant sampleSheet actFree "f1"
      ⟨by decide, by decide⟩).2.2.2.2.2.2.1 (by decide)).1⟩

/-- C2: committing after one undo truncates the log to the entries at or
before the post-undo cursor, appends, places the cursor on the new last
entry, and makes a following redo a no-op. -/
theorem commit_after_undo_truncates (s : CanvasSheet) (a : DrawingAction)
    (h : 0 ≤ s.historyIndex) :
    (handleCommitAction (handleUndo s) a).drawingHistory
      = s.drawingHistory.take s.historyIndex.toNat ++ [a] ∧
    (handleCommitAction (handleUndo s) a).historyIndex
      = ((handleCommitAction (handleUndo s) a).drawingHistory.length : ℤ) - 1 ∧
    handleRedo (handleCommitAction (handleUndo s) a)
      = handleCommitAction (handleUndo s) a := by
  have hu : handleUndo s = { s with historyIndex := s.historyIndex - 1 } := by
    unfold handleUndo; rw [if_neg (by omega)]
  have htn : (s.historyIndex - 1 + 1).toNat = s.historyIndex.toNat := by omega
  refine ⟨?_, ?_, ?_⟩
  · rw [hu]; simp [handleCommitAction, htn]
  · simp [handleCommitAction]
  · unfold handleRedo
    rw [if_pos (by simp [handleCommitAction])]

/-- Witness for C2 at a concrete sheet. -/
theorem commit_after_undo_truncates_witness :
    0 ≤ sampleSheet.historyIndex ∧
    (handleCommitAction (handleUndo sampleSheet) actFree).drawingHistory
      = sampleSheet.drawingHistory.take sampleSheet.historyIndex.toNat ++ [actFree] ∧
    handleRedo (handleCommitAction (handleUndo sampleSheet) actFree)
      = handleCommitAction (handleUndo sampleSheet) actFree :=
  ⟨by decide, (commit_after_undo_truncates sampleSheet actFree (by decide)).1,
   (commit_after_undo_truncates sampleSheet actFree (by decide)).2.2⟩

/-- C7: toggling visibility appends nothing: log length, entry order and
cursor are unchanged, every entry with a different id is untouched, and
an entry with the given id only has its visible flag flipped. -/
theorem toggle_visibility_frame (s : CanvasSheet) (actionId : String) :
    (handleToggleHistoryVisibility s actionId).drawingHistory.length
      = s.drawingHistory.length ∧
    (handleToggleHistoryVisibility s actionId).historyIndex = s.historyIndex ∧
    (∀ (i : ℕ) (a : DrawingAction), s.drawingHistory[i]? = some a → a.id ≠ actionId →
      (handleToggleHistoryVisibility s actionId).drawingHistory[i]? = some a) ∧
    (∀ (i : ℕ) (a : DrawingAction), s.drawingHistory[i]? = some a → a.id = actionId →
      (handleToggleHistoryVisibility s actionId).drawingHistory[i]?
        = some ({ a with visible := !a.visible })) := by
  refine ⟨by simp [handleToggleHistoryVisibility], rfl, ?_, ?_⟩
  · intro i a hi hne
    simp [handleToggleHistoryVisibility, List.getElem?_map, hi, hne]
  · intro i a hi heq
    simp [handleToggleHistoryVisibility, List.getElem?_map, hi, heq]

/-- Witness for C7 at a concrete sheet. -/
theorem toggle_visibility_frame_witness :
    (handleToggleHistoryVisibility sampleSheet "l1").drawingHistory.length
      = sampleSheet.drawingHistory.length ∧
    (handleToggleHistoryVisibility sampleSheet "l1").drawingHistory[0]? = some actFree ∧
    (handleToggleHistoryVisibility sampleSheet "l1").drawingHistory[1]?
      = some ({ actLine with visible := !actLine.visible }) :=
  ⟨(toggle_visibility_frame sampleSheet "l1").1,
   (toggle_visibility_frame sampleSheet "l1").2.2.1 0 actFree (by decide) (by decide),
   (toggle_visibility_frame sampleSheet "l1").2.2.2 1 actLine (by decide) (by decide)⟩

/-- Filtering out one id from a collection of at least two sheets with
pairwise distinct ids leaves at least one sheet. -/
theorem filter_ne_id_nonempty : ∀ (l : List CanvasSheet) (sid : String),
    (l.map CanvasSheet.id).Nodup → 2 ≤ l.length →
    l.filter (fun s => decide (s.id ≠ sid)) ≠ []
  | [], _, _, hlen => by simp at hlen
  | [_], _, _, hlen => by simp at hlen
  | a :: b :: rest, sid, hnd, _ => by
      by_cases ha : a.id = sid
      · have hnd' := hnd
        rw [List.map_cons] at hnd'
        have hmem : a.id ∉ (b :: rest).map CanvasSheet.id := (List.nodup_cons.mp hnd').1
        have hb : ¬ b.id = sid := by
          intro hbs
          apply hmem
          rw [List.map_cons]
          have hab : a.id = b.id := by rw [ha, hbs]
          rw [hab]
          exact List.mem_cons_self _ _
        simp [List.filter_cons, ha, hb]
      · simp [List.filter_cons, ha]

/-- C10: deleting when at most one sheet exists is a silent no-op, and
for sheets with pairwise distinct ids a delete never empties the
collection, so at least one sheet always remains. -/
theorem delete_last_sheet_rejected (sheets : List CanvasSheet) (sheetId : String) :
    (sheets.length ≤ 1 → handleDeleteSheet sheets sheetId = sheets) ∧
    ((sheets.map CanvasSheet.id).Nodup → sheets ≠ [] →
      handleDeleteSheet sheets sheetId ≠ []) := by
  constructor
  · intro h; unfold handleDeleteSheet; rw [if_pos h]
  · intro hnd hne
    unfold handleDeleteSheet
    split
    · exact hne
    · split
      · exact filter_ne_id_nonempty sheets sheetId hnd (by omega)
      · exact hne

/-- Witness for C10 at concrete collections: a singleton collection is
untouched, and deleting from a two-sheet collection leaves one sheet. -/
theorem delete_last_sheet_rejected_witness :
    handleDeleteSheet [sampleSheet] "sheet-1" = [sampleSheet] ∧
    handleDeleteSheet [sampleSheet, createNewSheet "sheet-2" "Sheet 2"] "sheet-1" ≠ [] :=
  ⟨(delete_last_sheet_rejected [sampleSheet] "sheet-1").1 (by decide),
   (delete_last_sheet_rejected [sampleSheet, createNewSheet "sheet-2" "Sheet 2"]
      "sheet-1").2 (by decide) (by decide)⟩

/-- Committing a batch of actions onto a sheet whose cursor sits on the
last entry appends them all and leaves the cursor on the new last
entry. -/
theorem commitAll_spec : ∀ (acts : List DrawingAction) (s : CanvasSheet),
    s.historyIndex = (s.drawingHistory.length : ℤ) - 1 →
    (commitAll s acts).drawingHistory = s.drawingHistory ++ acts ∧
    (commitAll s acts).historyIndex
      = (s.drawingHistory.length : ℤ) + (acts.length : ℤ) - 1
  | [], s, hs => by simp [commitAll, hs]
  | a :: rest, s, hs => by
      have htn : (s.historyIndex + 1).toNat = s.drawingHistory.length := by omega
      have hstep : handleCommitAction s a =
          { s with drawingHistory := s.drawingHistory ++ [a],
                   historyIndex := (s.drawingHistory.length : ℤ) } := by
        unfold handleCommitAction
        simp [htn]
      have hrec := commitAll_spec rest (handleCommitAction s a) (by rw [hstep]; simp)
      have hfold : commitAll s (a :: rest) = commitAll (handleCommitAction s a) rest := rfl
      rw [hfold, hrec.1, hrec.2, hstep]
      constructor
      · simp
      · simp
        omega

/-- Iterating handleUndo leaves the log alone and moves the cursor down,
clamped at -1. -/
theorem handleUndo_iterate_spec : ∀ (k : ℕ) (s : CanvasSheet), -1 ≤ s.historyIndex →
    (handleUndo^[k] s).drawingHistory = s.drawingHistory ∧
    (handleUndo^[k] s).historyIndex = max (-1) (s.historyIndex - k)
  | 0, s, hs => by
      constructor
      · rfl
      · show s.historyIndex = max (-1) (s.historyIndex - ((0 : ℕ) : ℤ))
        omega
  | k + 1, s, hs => by
      rw [Function.iterate_succ_apply]
      by_cases h : s.historyIndex < 0
      · have hid : handleUndo s = s := by unfold handleUndo; rw [if_pos h]
        rw [hid]
        obtain ⟨h1, h2⟩ := handleUndo_iterate_spec k s hs
        exact ⟨h1, by rw [h2]; omega⟩
      · have hu : handleUndo s = { s with historyIndex := s.historyIndex - 1 } := by
          unfold handleUndo; rw [if_neg h]
        rw [hu]
        obtain ⟨h1, h2⟩ := handleUndo_iterate_spec k
          ({ s with historyIndex := s.historyIndex - 1 })
          (by show -1 ≤ s.historyIndex - 1; omega)
        refine ⟨h1, ?_⟩
        rw [h2]
        show max (-1) (s.historyIndex - 1 - (k : ℤ)) = max (-1) (s.historyIndex - ((k + 1 : ℕ) : ℤ))
        omega

/-- Iterating handleRedo leaves the log alone and moves the cursor up,
clamped at length - 1. -/
theorem handleRedo_iterate_spec : ∀ (k : ℕ) (s : CanvasSheet),
    s.historyIndex ≤ (s.drawingHistory.length : ℤ) - 1 →
    (handleRedo^[k] s).drawingHistory = s.drawingHistory ∧
    (handleRedo^[k] s).historyIndex
      = min ((s.drawingHistory.length : ℤ) - 1) (s.historyIndex + k)
  | 0, s, hs => by
      constructor
      · rfl
      · show s.historyIndex = min ((s.drawingHistory.length : ℤ) - 1) (s.historyIndex + ((0 : ℕ) : ℤ))
        omega
  | k + 1, s, hs => by
      rw [Function.iterate_succ_apply]
      by_cases h : s.historyIndex ≥ (s.drawingHistory.length : ℤ) - 1
      · have hid : handleRedo s = s := by unfold handleRedo; rw [if_pos h]
        rw [hid]
        obtain ⟨h1, h2⟩ := handleRedo_iterate_spec k s hs
        exact ⟨h1, by rw [h2]; omega⟩
      · have hr : handleRedo s = { s with historyIndex := s.historyIndex + 1 } := by
          unfold handleRedo; rw [if_neg h]
        rw [hr]
        obtain ⟨h1, h2⟩ := handleRedo_iterate_spec k
          ({ s with historyIndex := s.historyIndex + 1 })
          (by show s.historyIndex + 1 ≤ (s.drawingHistory.length : ℤ) - 1; omega)
        refine ⟨h1, ?_⟩
        rw [h2]
        show min ((s.drawingHistory.length : ℤ) - 1) (s.historyIndex + 1 + (k : ℤ))
          = min ((s.drawingHistory.length : ℤ) - 1) (s.historyIndex + ((k + 1 : ℕ) : ℤ))
        omega

/-- C1: after N commits onto a fresh sheet, undoing N times and then
redoing N times restores the cursor to N - 1 with the log unchanged, so
the replayed paint operations agree with those after the original
commits. -/
theorem undo_redo_roundtrip (sheetId sheetName : String) (acts : List DrawingAction)
    (measure : TextElementData → ℚ) :
    (handleRedo^[acts.length] (handleUndo^[acts.length]
        (commitAll (createNewSheet sheetId sheetName) acts))).historyIndex
      = (acts.length : ℤ) - 1 ∧
    (handleRedo^[acts.length] (handleUndo^[acts.length]
        (commitAll (createNewSheet sheetId sheetName) acts))).drawingHistory
      = (commitAll (createNewSheet sheetId sheetName) acts).drawingHistory ∧
    renderOpsMap measure
        (handleRedo^[acts.length] (handleUndo^[acts.length]
          (commitAll (createNewSheet sheetId sheetName) acts))).drawingHistory
        (handleRedo^[acts.length] (handleUndo^[acts.length]
          (commitAll (createNewSheet sheetId sheetName) acts))).historyIndex
      = renderOpsMap measure
          (commitAll (createNewSheet sheetId sheetName) acts).drawingHistory
          (commitAll (createNewSheet sheetId sheetName) acts).historyIndex := by
  obtain ⟨hc1, hc2⟩ := commitAll_spec acts (createNewSheet sheetId sheetName) (by rfl)
  have hc1' : (commitAll (createNewSheet sheetId sheetName) acts).drawingHistory = acts := by
    rw [hc1]; rfl
  have hc2' : (commitAll (createNewSheet sheetId sheetName) acts).historyIndex
      = (acts.length : ℤ) - 1 := by
    rw [hc2]; simp [createNewSheet]
  obtain ⟨hu1, hu2⟩ := handleUndo_iterate_spec acts.length
    (commitAll (createNewSheet sheetId sheetName) acts) (by omega)
  obtain ⟨hr1, hr2⟩ := handleRedo_iterate_spec acts.length
    (handleUndo^[acts.length] (commitAll (createNewSheet sheetId sheetName) acts))
    (by rw [hu2, hu1, hc1', hc2']; omega)
  have hidx : (handleRedo^[acts.length] (handleUndo^[acts.length]
      (commitAll (createNewSheet sheetId sheetName) acts))).historyIndex
      = (acts.length : ℤ) - 1 := by
    rw [hr2, hu1, hu2, hc1', hc2']
    omega
  have hhist : (handleRedo^[acts.length] (handleUndo^[acts.length]
      (commitAll (createNewSheet sheetId sheetName) acts))).drawingHistory
      = (commitAll (createNewSheet sheetId sheetName) acts).drawingHistory := by
    rw [hr1, hu1]
  refine ⟨hidx, hhist, ?_⟩
  rw [hidx, hhist, hc2']

/-- Lookup skips a head whose predicate value is false. -/
theorem find_cons_false {α : Type} (p : α → Bool) (a : α) (l : List α)
    (h : p a = false) : (a :: l).find? p = l.find? p := by
  simp [List.find?_cons, h]

/-- Lookup returns a head whose predicate value is true. -/
theorem find_cons_true {α : Type} (p : α → Bool) (a : α) (l : List α)
    (h : p a = true) : (a :: l).find? p = some a := by
  simp [List.find?_cons, h]

/-- updateSheetHistory keeps every sheet id, so lookups of a different id
see exactly the original sheets. -/
theorem findSheet_updateSheetHistory_ne (l : List CanvasSheet) (sid tid : String)
    (nh : List DrawingAction) (ni : ℤ) (hne : tid ≠ sid) :
    findSheet (updateSheetHistory l sid nh ni) tid = findSheet l tid := by
  induction l with
  | nil => rfl
  | cons a t ih =>
    unfold updateSheetHistory findSheet at ih ⊢
    rw [List.map_cons]
    by_cases ha : a.id = sid
    · rw [if_pos ha]
      have hat : decide (a.id = tid) = false := by
        simp only [decide_eq_false_iff_not]
        intro hh
        exact hne (hh.symm.trans ha)
      rw [find_cons_false (fun s : CanvasSheet => decide (s.id = tid))
            ({ a with drawingHistory := nh, historyIndex := ni }) _ (by exact hat),
          find_cons_false (fun s : CanvasSheet => decide (s.id = tid)) a _ hat]
      exact ih
    · rw [if_neg ha]
      by_cases hat : a.id = tid
      · rw [find_cons_true (fun s : CanvasSheet => decide (s.id = tid)) a _ (by simp [hat]),
            find_cons_true (fun s : CanvasSheet => decide (s.id = tid)) a _ (by simp [hat])]
      · rw [find_cons_false (fun s : CanvasSheet => decide (s.id = tid)) a _ (by simp [hat]),
            find_cons_false (fun s : CanvasSheet => decide (s.id = tid)) a _ (by simp [hat])]
        exact ih

/-- Sheet lookup distributes over append. -/
theorem findSheet_append (l m : List CanvasSheet) (tid : String) :
    findSheet (l ++ m) tid = (findSheet l tid).or (findSheet m tid) := by
  simp [findSheet, List.find?_append]

/-- Sheet lookup misses when no sheet carries the id. -/
theorem findSheet_eq_none_of_fresh (l : List CanvasSheet) (tid : String)
    (h : ∀ x ∈ l, x.id ≠ tid) : findSheet l tid = none := by
  unfold findSheet
  refine List.find?_eq_none.mpr ?_
  intro x hx
  simp only [decide_eq_true_eq]
  exact h x hx

/-- The sheet record appended by handleDuplicateSheet: fresh id, name with
the Copy suffix, and a copy of the log and cursor of the source sheet. -/
def duplicatedSheet (newId : String) (orig : CanvasSheet) : CanvasSheet :=
  { id := newId, name := orig.name ++ " (Copy)",
    drawingHistory := orig.drawingHistory, historyIndex := orig.historyIndex }

/-- C8: duplicating a sheet copies its log and cursor into an independent
new sheet: clearing or toggling visibility on the duplicate leaves the
original sheet record untouched, and clearing or toggling on the
original leaves the duplicate untouched. -/
theorem duplicate_sheet_independent (sheets : List CanvasSheet)
    (origId newId actionId : String) (orig : CanvasSheet)
    (hfind : findSheet sheets origId = some orig)
    (hfresh : ∀ x ∈ sheets, x.id ≠ newId) :
    findSheet (handleDuplicateSheet sheets origId newId) newId
      = some (duplicatedSheet newId orig) ∧
    findSheet (handleClearCanvasOn (handleDuplicateSheet sheets origId newId) newId) origId
      = some orig ∧
    findSheet (handleToggleHistoryVisibilityOn
        (handleDuplicateSheet sheets origId newId) newId actionId) origId
      = some orig ∧
    findSheet (handleClearCanvasOn (handleDuplicateSheet sheets origId newId) origId) newId
      = findSheet (handleDuplicateSheet sheets origId newId) newId ∧
    findSheet (handleToggleHistoryVisibilityOn
        (handleDuplicateSheet sheets origId newId) origId actionId) newId
      = findSheet (handleDuplicateSheet sheets origId newId) newId := by
  have horig_mem : orig ∈ sheets := List.mem_of_find?_eq_some hfind
  have horig_id : orig.id = origId := by
    have hh := List.find?_some hfind
    simpa using hh
  have hne : origId ≠ newId := by
    rw [← horig_id]
    exact hfresh orig horig_mem
  have hdup : handleDuplicateSheet sheets origId newId
      = sheets ++ [duplicatedSheet newId orig] := by
    unfold handleDuplicateSheet
    rw [hfind]
    rfl
  have hfind_dup_new : findSheet (sheets ++ [duplicatedSheet newId orig]) newId
      = some (duplicatedSheet newId orig) := by
    rw [findSheet_append, findSheet_eq_none_of_fresh sheets newId hfresh]
    simp [findSheet, duplicatedSheet, List.find?_cons]
  have hfind_dup_orig : findSheet (sheets ++ [duplicatedSheet newId orig]) origId
      = some orig := by
    rw [findSheet_append, hfind]
    simp
  refine ⟨?_, ?_, ?_, ?_, ?_⟩
  · rw [hdup]
    exact hfind_dup_new
  · rw [hdup]
    unfold handleClearCanvasOn
    rw [findSheet_updateSheetHistory_ne _ _ _ _ _ hne]
    exact hfind_dup_orig
  · rw [hdup]
    unfold handleToggleHistoryVisibilityOn
    rw [hfind_dup_new]
    rw [findSheet_updateSheetHistory_ne _ _ _ _ _ hne]
    exact hfind_dup_orig
  · rw [hdup]
    unfold handleClearCanvasOn
    rw [findSheet_updateSheetHistory_ne _ _ _ _ _ (Ne.symm hne)]
  · rw [hdup]
    unfold handleToggleHistoryVisibilityOn
    rw [hfind_dup_orig]
    rw [findSheet_updateSheetHistory_ne _ _ _ _ _ (Ne.symm hne)]

/-- Witness for C8 at a concrete collection: duplicating the sample sheet
and clearing the duplicate leaves the original lookup unchanged, and
clearing the original leaves the duplicate lookup unchanged. -/
theorem duplicate_sheet_independent_witness :
    findSheet (handleClearCanvasOn
        (handleDuplicateSheet [sampleSheet] "sheet-1" "sheet-2") "sheet-2") "sheet-1"
      = some sampleSheet ∧
    findSheet (handleClearCanvasOn
        (handleDuplicateSheet [sampleSheet] "sheet-1" "sheet-2") "sheet-1") "sheet-2"
      = findSheet (handleDuplicateSheet [sampleSheet] "sheet-1" "sheet-2") "sheet-2" :=
  ⟨(duplicate_sheet_independent [sampleSheet] "sheet-1" "sheet-2" "f1" sampleSheet
      (by decide) (by decide)).2.1,
   (duplicate_sheet_independent [sampleSheet] "sheet-1" "sheet-2" "f1" sampleSheet
      (by decide) (by decide)).2.2.2.1⟩

/-- First revision of the T1 text element at (10,10). -/
def textRev1 : TextElementData :=
  { id := "T1", text := "hello", x := 10, y := 10, fontFamily := "Arial", fontSize := 24,
    textColor := "#000000", textAlign := Align.left, isBold := false, isItalic := false,
    isUnderline := false, measuredWidth := 0, measuredHeight := 0 }

/-- Second revision of the T1 text element at (50,50), committed hidden. -/
def textRev2 : TextElementData :=
  { textRev1 with x := 50, y := 50 }

/-- A fixed text-measuring capability returning width 60. -/
def measure60 : TextElementData → ℚ := fun _ => 60

/-- The two-entry log of the identity-resolution scenario: a visible T1
revision followed by a hidden T1 revision. -/
def hiddenTextLog : List DrawingAction :=
  [{ id := "T1", visible := true, data := ActionData.text textRev1 },
   { id := "T1", visible := false, data := ActionData.text textRev2 }]

/-- C3 counterexample: on the log with a visible T1 revision at x = 10
followed by a hidden T1 revision at x = 50, getTextElementById returns
the earlier visible revision (x = 10), not the most recent hidden
revision (x = 50) as the claim states, because its scan skips actions
whose visible flag is false. -/
theorem getTextElementById_hidden_counterexample :
    (getTextElementById measure60 hiddenTextLog 1 "T1").map TextElementData.x = some 10 ∧
    ¬ ((getTextElementById measure60 hiddenTextLog 1 "T1").map TextElementData.x
        = some 50) := by
  constructor
  · rfl
  · decide

/-- C3 amended: with a visible text revision under id T1 followed by a
hidden revision under the same id, both applied, rendering produces no
entry for T1 (the hidden occurrence deletes the identity from the render
map even though the earlier occurrence was visible), and
getTextElementById returns the data of the latest revision whose visible
flag is not false — here the earlier visible revision, with freshly
measured dimensions — rather than the hidden revision. -/
theorem text_hidden_removes_render_entry (d1 d2 : TextElementData)
    (measure : TextElementData → ℚ) :
    latestActionDataById
        [{ id := "T1", visible := true, data := ActionData.text d1 },
         { id := "T1", visible := false, data := ActionData.text d2 }] 1 = [] ∧
    renderOpsMap measure
        [{ id := "T1", visible := true, data := ActionData.text d1 },
         { id := "T1", visible := false, data := ActionData.text d2 }] 1 = [] ∧
    getTextElementById measure
        [{ id := "T1", visible := true, data := ActionData.text d1 },
         { id := "T1", visible := false, data := ActionData.text d2 }] 1 "T1"
      = some ({ d1 with measuredWidth := measure d1, measuredHeight := d1.fontSize }) :=
  ⟨rfl, rfl, rfl⟩

/-- The right-aligned text element of the hit-test scenario: anchor
x = 200, baseline y = 100. -/
def rightText : TextElementData :=
  { id := "T1", text := "hi", x := 200, y := 100, fontFamily := "Arial", fontSize := 24,
    textColor := "#000000", textAlign := Align.right, isBold := false, isItalic := false,
    isUnderline := false, measuredWidth := 0, measuredHeight := 0 }

/-- C5: for a visible right-aligned text element with anchor x = 200 and
measured width 60, the hit test reports a hit at x = 180 (with y between
the baseline minus the measured height and the baseline) and a miss at
x = 210, and the hit box applies the identical alignment-dependent
offset (left: x, center: x - width / 2, right: x - width) that
drawTextElement uses when painting. -/
theorem text_hit_test_alignment (d : TextElementData) (aid : String)
    (measure : TextElementData → ℚ) (py qy : ℚ)
    (halign : d.textAlign = Align.right)
    (hx : d.x = 200)
    (hw : measure d = 60)
    (hy1 : d.y - d.fontSize ≤ py)
    (hy2 : py ≤ d.y) :
    getTextElementAtPointInternal measure
        [{ id := aid, visible := true, data := ActionData.text d }] 0
        { x := 180, y := py }
      = some ({ d with measuredWidth := measure d, measuredHeight := d.fontSize }) ∧
    getTextElementAtPointInternal measure
        [{ id := aid, visible := true, data := ActionData.text d }] 0
        { x := 210, y := qy }
      = none ∧
    (∀ td : TextElementData, textHitX1 td = underlineStartX td td.measuredWidth) := by
  have hmap : latestTextElements measure
      [{ id := aid, visible := true, data := ActionData.text d }] 0
      = [(aid, { d with measuredWidth := measure d, measuredHeight := d.fontSize })] := rfl
  have hcontains : textHitBoxContains
      ({ d with measuredWidth := measure d, measuredHeight := d.fontSize })
      { x := 180, y := py } = true := by
    simp only [textHitBoxContains, textHitX1, halign, hx, hw]
    norm_num
    refine ⟨by linarith, hy2⟩
  have hmiss : textHitBoxContains
      ({ d with measuredWidth := measure d, measuredHeight := d.fontSize })
      { x := 210, y := qy } = false := by
    simp only [textHitBoxContains, textHitX1, halign, hx, hw]
    norm_num
  refine ⟨?_, ?_, ?_⟩
  · unfold getTextElementAtPointInternal
    rw [hmap]
    show (List.find? _ [_]).map _ = _
    rw [find_cons_true _ _ _ (by exact hcontains)]
    rfl
  · unfold getTextElementAtPointInternal
    rw [hmap]
    show (List.find? _ [_]).map _ = _
    rw [find_cons_false _ _ _ (by exact hmiss)]
    rfl
  · intro td
    cases htd : td.textAlign <;> simp [textHitX1, underlineStartX, htd]

/-- Witness for C5 at the concrete right-aligned element and measuring
function. -/
theorem text_hit_test_alignment_witness :
    getTextElementAtPointInternal measure60
        [{ id := "T1", visible := true, data := ActionData.text rightText }] 0
        { x := 180, y := 90 }
      = some ({ rightText with measuredWidth := measure60 rightText, measuredHeight := rightText.fontSize }) ∧
    getTextElementAtPointInternal measure60
        [{ id := "T1", visible := true, data := ActionData.text rightText }] 0
        { x := 210, y := 90 }
      = none :=
  ⟨(text_hit_test_alignment rightText "T1" measure60 90 90 rfl rfl rfl
      (by norm_num [rightText]) (by norm_num [rightText])).1,
   (text_hit_test_alignment rightText "T1" measure60 90 90 rfl rfl rfl
      (by norm_num [rightText]) (by norm_num [rightText])).2.1⟩

/-- The three-commit log of the eraser-sequencing scenario: visible
freehand stroke A, eraser swipe E, visible freehand stroke B, in that
order (handleCommitAction always stores interaction commits with visible
true). -/
def threeLog (idA idE idB : String) (ptsA ptsE ptsB : List Point)
    (cA cB : String) (wA wB sz : ℚ) : List DrawingAction :=
  [{ id := idA, visible := true, data := ActionData.freehand ptsA cA wA },
   { id := idE, visible := true, data := ActionData.eraser ptsE sz },
   { id := idB, visible := true, data := ActionData.freehand ptsB cB wB }]

/-- Folding the clearRect operations of an eraser action over any surface
wipes exactly the union of its squares: the result at a point is none
when some square covers it and the previous content otherwise. -/
theorem foldl_clearRect_pixel (env : ExternalPaint) (sz : ℚ) (qs : List Point)
    (c : Canvas) (p : Point) :
    ((qs.map (fun q => CanvasOp.clearRect (q.x - sz / 2) (q.y - sz / 2) sz sz)).foldl
        (applyOp env) c) p
      = if eraserCovers qs sz p then none else c p := by
  induction qs generalizing c with
  | nil => simp [eraserCovers]
  | cons q qs ih =>
    rw [List.map_cons, List.foldl_cons, ih]
    have hcons : eraserCovers (q :: qs) sz p
        = (inRectB p (q.x - sz / 2) (q.y - sz / 2) sz sz || eraserCovers qs sz p) := rfl
    rw [hcons]
    cases h1 : inRectB p (q.x - sz / 2) (q.y - sz / 2) sz sz <;>
      cases h2 : eraserCovers qs sz p <;>
      simp [applyOp, h1, h2]

/-- C4: on a log holding, in order, a visible freehand stroke A, an
eraser swipe E and a visible freehand stroke B with three distinct
(fresh) ids, both renderer variants replay the three entries strictly in
log order — stroke A, the clear squares of E, stroke B — so every point
covered by stroke B ends up painted in the color of B, while with the
cursor on E (index 1) every point covered by E is erased. -/
theorem eraser_sequential_replay
    (idA idE idB cA cB : String) (ptsA ptsE ptsB : List Point) (wA wB sz : ℚ)
    (env : ExternalPaint) (measure : TextElementData → ℚ) (p : Point)
    (hAE : idA ≠ idE) (hAB : idA ≠ idB) (hEB : idE ≠ idB)
    (hA : 1 < ptsA.length) (hB : 1 < ptsB.length) :
    renderOpsMap measure (threeLog idA idE idB ptsA ptsE ptsB cA cB wA wB sz) 2
      = [CanvasOp.strokePath ptsA cA wA]
        ++ ptsE.map (fun q => CanvasOp.clearRect (q.x - sz / 2) (q.y - sz / 2) sz sz)
        ++ [CanvasOp.strokePath ptsB cB wB] ∧
    renderOpsSeq measure (threeLog idA idE idB ptsA ptsE ptsB cA cB wA wB sz) 2
      = renderOpsMap measure (threeLog idA idE idB ptsA ptsE ptsB cA cB wA wB sz) 2 ∧
    (freehandCovers ptsB wB p = true →
      renderCanvasMap env measure (threeLog idA idE idB ptsA ptsE ptsB cA cB wA wB sz) 2 p
        = some cB ∧
      renderCanvasSeq env measure (threeLog idA idE idB ptsA ptsE ptsB cA cB wA wB sz) 2 p
        = some cB) ∧
    (eraserCovers ptsE sz p = true →
      renderCanvasMap env measure (threeLog idA idE idB ptsA ptsE ptsB cA cB wA wB sz) 1 p
        = none) := by
  have hmap2 : latestActionDataById (threeLog idA idE idB ptsA ptsE ptsB cA cB wA wB sz) 2
      = [(idA, { id := idA, visible := true, data := ActionData.freehand ptsA cA wA }),
         (idE, { id := idE, visible := true, data := ActionData.eraser ptsE sz }),
         (idB, { id := idB, visible := true, data := ActionData.freehand ptsB cB wB })] := by
    simp [threeLog, latestActionDataById, jsMapSet, jsMapHas, jsMapDelete, hAE, hAB, hEB]
  have hmap1 : latestActionDataById (threeLog idA idE idB ptsA ptsE ptsB cA cB wA wB sz) 1
      = [(idA, { id := idA, visible := true, data := ActionData.freehand ptsA cA wA }),
         (idE, { id := idE, visible := true, data := ActionData.eraser ptsE sz })] := by
    simp [threeLog, latestActionDataById, jsMapSet, jsMapHas, jsMapDelete, hAE]
  have hops2 : renderOpsMap measure (threeLog idA idE idB ptsA ptsE ptsB cA cB wA wB sz) 2
      = [CanvasOp.strokePath ptsA cA wA]
        ++ ptsE.map (fun q => CanvasOp.clearRect (q.x - sz / 2) (q.y - sz / 2) sz sz)
        ++ [CanvasOp.strokePath ptsB cB wB] := by
    rw [renderOpsMap, hmap2]
    simp [actionOps, hA, hB]
  have hops1 : renderOpsMap measure (threeLog idA idE idB ptsA ptsE ptsB cA cB wA wB sz) 1
      = [CanvasOp.strokePath ptsA cA wA]
        ++ ptsE.map (fun q => CanvasOp.clearRect (q.x - sz / 2) (q.y - sz / 2) sz sz) := by
    rw [renderOpsMap, hmap1]
    simp [actionOps, hA]
  have hseq : renderOpsSeq measure (threeLog idA idE idB ptsA ptsE ptsB cA cB wA wB sz) 2
      = [CanvasOp.strokePath ptsA cA wA]
        ++ ptsE.map (fun q => CanvasOp.clearRect (q.x - sz / 2) (q.y - sz / 2) sz sz)
        ++ [CanvasOp.strokePath ptsB cB wB] := by
    simp [renderOpsSeq, threeLog, seqStep, hA, hB]
  refine ⟨hops2, by rw [hseq, hops2], ?_, ?_⟩
  · intro hp
    have hfin : ∀ c : Canvas,
        (([CanvasOp.strokePath ptsA cA wA]
          ++ ptsE.map (fun q => CanvasOp.clearRect (q.x - sz / 2) (q.y - sz / 2) sz sz)
          ++ [CanvasOp.strokePath ptsB cB wB]).foldl (applyOp env) c) p = some cB := by
      intro c
      simp only [List.foldl_append, List.foldl_cons, List.foldl_nil]
      simp [applyOp, hp]
    constructor
    · rw [renderCanvasMap, hops2]
      exact hfin _
    · rw [renderCanvasSeq, hseq]
      exact hfin _
  · intro hpE
    rw [renderCanvasMap, hops1]
    simp only [List.foldl_append, List.foldl_cons, List.foldl_nil]
    rw [foldl_clearRect_pixel]
    simp [hpE]

/-- Witness for C4 at concrete strokes: stroke A along the x axis, an
eraser square over its middle, stroke B along the same line; the point
(5,0) is covered by B and by the eraser square. -/
theorem eraser_sequential_replay_witness :
    renderCanvasMap ⟨fun _ _ => none⟩ measure60
        (threeLog "a" "e" "b" [{ x := 0, y := 0 }, { x := 10, y := 0 }] [{ x := 5, y := 0 }]
          [{ x := 0, y := 0 }, { x := 10, y := 0 }] "#ff0000" "#0000ff" 2 2 4) 2
        { x := 5, y := 0 }
      = some "#0000ff" ∧
    renderCanvasMap ⟨fun _ _ => none⟩ measure60
        (threeLog "a" "e" "b" [{ x := 0, y := 0 }, { x := 10, y := 0 }] [{ x := 5, y := 0 }]
          [{ x := 0, y := 0 }, { x := 10, y := 0 }] "#ff0000" "#0000ff" 2 2 4) 1
        { x := 5, y := 0 }
      = none :=
  ⟨((eraser_sequential_replay "a" "e" "b" "#ff0000" "#0000ff"
      [{ x := 0, y := 0 }, { x := 10, y := 0 }] [{ x := 5, y := 0 }]
      [{ x := 0, y := 0 }, { x := 10, y := 0 }] 2 2 4 ⟨fun _ _ => none⟩ measure60
      { x := 5, y := 0 } (by decide) (by decide) (by decide) (by decide)
      (by decide)).2.2.1
        (by norm_num [freehandCovers, segWithin, distSq, min_def, max_def])).1,
   (eraser_sequential_replay "a" "e" "b" "#ff0000" "#0000ff"
      [{ x := 0, y := 0 }, { x := 10, y := 0 }] [{ x := 5, y := 0 }]
      [{ x := 0, y := 0 }, { x := 10, y := 0 }] 2 2 4 ⟨fun _ _ => none⟩ measure60
      { x := 5, y := 0 } (by decide) (by decide) (by decide) (by decide)
      (by decide)).2.2.2 (by norm_num [eraserCovers, inRectB])⟩
